import Mathlib

/-!
Shallow embedding of `backend/main.py` (newsbot): user registration/login over
a users table, a per-user in-memory preference map, the news
fetch/clean/summarize pipeline, and the `/chat` routing logic.

Modelling conventions:
- Python `str` is modelled as `List Char` (`Str` below); `len`, slicing and
  substring containment (`in`) act on characters, as in Python.
- `str.lower()` is modelled with `Char.toLower` (ASCII case mapping, which
  covers every character relevant to the routing keywords).
- `str.strip()` emptiness is modelled by "all characters are whitespace",
  with the ASCII whitespace set stripped by Python.
- The sqlite `users` table is a list of rows plus the AUTOINCREMENT counter;
  `INSERT` appends, `SELECT ... WHERE` with `fetchone` is `List.find?`, and
  the UNIQUE constraint on `username` raises `IntegrityError` exactly when a
  row with that username already exists.
- `hashlib.sha256(...).hexdigest()` is an opaque deterministic digest; the
  definitions take the digest `hash : Str → Str` as an explicit parameter, so
  every theorem quantifying over `hash` in particular covers SHA-256.
- The outcome of `requests.get(...).json()` in `fetch_news` is an explicit
  `Except` parameter: `.error` stands for any raised exception (network
  failure, timeout, unparsable body), `.ok` for a parsed article list.
- `user_memory` is an insertion-ordered association list, matching a Python
  dict: `setdefault` appends a default entry when the key is absent,
  assignment updates in place or appends.
-/

namespace NewsBot

/-- Python `str`, as a list of characters. -/
abbrev Str := List Char

/-- Characters stripped by Python `str.strip()` (ASCII whitespace). -/
def isPyWs (c : Char) : Bool :=
  c == ' ' || c == '\t' || c == '\n' || c == '\r' || c == '\x0b' || c == '\x0c'

/-- `not s.strip()`: the message is empty or consists only of whitespace. -/
def wsOnly (s : Str) : Bool := s.all isPyWs

/-- Python `s.lower()` (ASCII case mapping). -/
def pyLower (s : Str) : Str := s.map Char.toLower

/-- Python substring containment `needle in hay`. -/
def inStr (needle hay : Str) : Bool := decide (needle <:+: hay)

/-! ### News pipeline: `fetch_news`, `clean_headlines`, `summarize` -/

/-- One article of the parsed JSON response: only its `"title"` field matters
to `fetch_news`; `none` models an absent or `null` title. -/
structure Article where
  title : Option Str
deriving DecidableEq

/-- The list comprehension `[a["title"] for a in data.get("articles", []) if a.get("title")]`:
keep the titles that are present and truthy (a present empty string is falsy). -/
def extractTitles (articles : List Article) : List Str :=
  articles.filterMap fun a =>
    match a.title with
    | some t => if t.isEmpty then none else some t
    | none => none

/-- Python truthiness of `NEWS_API_KEY` being falsy in `if not NEWS_API_KEY`:
the environment variable is unset, or set to the empty string. -/
def keyFalsy : Option Str → Bool
  | none => true
  | some k => k.isEmpty

/-- `fetch_news(query)` from `backend/main.py`. The network/parse outcome of
`requests.get(...).json()` is passed in as `httpResult`; `.error` models any
exception raised inside the `try` block. The `query` itself only feeds the
request parameters, so it does not appear in the result shape. -/
def fetch_news (apiKey : Option Str) (httpResult : Except Unit (List Article)) : List Str :=
  if keyFalsy apiKey then []
  else
    match httpResult with
    | .error _ => []
    | .ok articles => extractTitles articles

/-- The separator `" - "` used by `clean_headlines`. -/
def sepDash : Str := " - ".data

/-- `h.split(sep)[0]`: the portion of `h` before the first occurrence of
`sep` (the whole of `h` when `sep` does not occur). -/
def beforeSep (sep : Str) : Str → Str
  | [] => []
  | c :: t => if sep.isPrefixOf (c :: t) then [] else c :: beforeSep sep t

/-- The second statement of the `clean_headlines` loop body:
`if len(h) > 90: h = h[:87] + "..."`. -/
def truncTail (h : Str) : Str :=
  if 90 < h.length then h.take 87 ++ "...".data else h

/-- The per-headline body of the `clean_headlines` loop:
split off a `" - "` source suffix, then truncate to 87 characters plus
`"..."` when longer than 90. -/
def cleanOne (h : Str) : Str :=
  truncTail (if inStr sepDash h then beforeSep sepDash h else h)

/-- `clean_headlines(headlines)` from `backend/main.py`: clean each headline
in order, then keep the first 3 (`cleaned[:3]`). -/
def clean_headlines (hs : List Str) : List Str :=
  (hs.map cleanOne).take 3

/-- `summarize(headlines, category)` from `backend/main.py`. The second match
arm catches exactly the lists of length < 2, mirroring the early return. -/
def summarize (headlines : List Str) (category : Str) : Str :=
  match headlines with
  | h0 :: h1 :: _ =>
      category ++ " update: ".data ++ h0 ++ " and ".data ++ h1 ++ ".".data
  | _ => "No major updates right now.".data

/-! ### Credential store: the `users` table, `register`, `login` -/

/-- One row of the `users` table. `password` stores the digest, as inserted
by `register`. -/
structure UserRow where
  id : Nat
  username : Str
  password : Str
deriving DecidableEq

/-- The `users` table: its rows plus the AUTOINCREMENT counter for the next
`id` to assign. -/
structure UsersDB where
  nextId : Nat
  rows : List UserRow
deriving DecidableEq

/-- `SELECT id, password FROM users WHERE username=?` with `fetchone()`. -/
def findByUsername (db : UsersDB) (u : Str) : Option UserRow :=
  db.rows.find? fun r => decide (r.username = u)

/-- `SELECT id FROM users WHERE id=?` with `fetchone()`. -/
def findUserById (db : UsersDB) (i : Nat) : Option UserRow :=
  db.rows.find? fun r => decide (r.id = i)

/-- Whether the UNIQUE constraint on `username` fires for an insert. -/
def usernameTaken (db : UsersDB) (u : Str) : Bool :=
  db.rows.any fun r => decide (r.username = u)

/-- Payload of `/register`: `{"status": "registered"}` or
`{"error": "Username already exists"}`. -/
inductive RegisterResult where
  | registered
  | errUsernameExists
deriving DecidableEq

/-- `register(data)` from `backend/main.py`, parameterized by the password
digest `hash` (`hash_password` in the source). A duplicate username makes the
`INSERT` raise `sqlite3.IntegrityError`, leaving the table unchanged;
otherwise the row is inserted with the next AUTOINCREMENT id. -/
def register (hash : Str → Str) (db : UsersDB) (username password : Str) :
    RegisterResult × UsersDB :=
  if usernameTaken db username then (.errUsernameExists, db)
  else (.registered,
    { nextId := db.nextId + 1
      rows := db.rows ++ [{ id := db.nextId, username := username, password := hash password }] })

/-- `verify_password(password, hashed)`: digest the candidate and compare. -/
def verify_password (hash : Str → Str) (password hashed : Str) : Bool :=
  decide (hash password = hashed)

/-- Payload of `/login`: `{"user_id": id}` or `{"error": msg}`. -/
inductive LoginResult where
  | userId (id : Nat)
  | err (msg : Str)
deriving DecidableEq

/-- `login(data)` from `backend/main.py`: look the username up, fail with the
generic `"Invalid credentials"` when the row is missing or the digest does
not match (`if not row or not verify_password(...)`). Reads only. -/
def login (hash : Str → Str) (db : UsersDB) (username password : Str) : LoginResult :=
  match findByUsername db username with
  | none => .err "Invalid credentials".data
  | some row =>
      if verify_password hash password row.password then .userId row.id
      else .err "Invalid credentials".data

/-! ### Preference memory and the chat endpoint -/

/-- The stored category preference: `"AI"` or `"TECH"`. -/
inductive Category where
  | AI
  | TECH
deriving DecidableEq

/-- A `user_memory` value: `"AI"`, `"TECH"` or `None`. -/
abbrev Pref := Option Category

/-- The `user_memory` dict, as an insertion-ordered association list. -/
abbrev Memory := List (Nat × Pref)

/-- Dict lookup `user_memory.get(k)`-style: the value at key `k`, if present. -/
def memLookup (m : Memory) (k : Nat) : Option Pref :=
  (m.find? fun e => decide (e.1 = k)).map Prod.snd

/-- Dict assignment `user_memory[k] = v`: update in place, or append. -/
def memSet : Memory → Nat → Pref → Memory
  | [], k, v => [(k, v)]
  | (k0, v0) :: t, k, v =>
      if k0 = k then (k, v) :: t else (k0, v0) :: memSet t k v

/-- `user_memory.setdefault(k, None)`: record the default on first access. -/
def memSetdefault (m : Memory) (k : Nat) : Memory :=
  match memLookup m k with
  | some _ => m
  | none => m ++ [(k, none)]

/-- Payload of `/chat` plus the `user_memory` state after the call (the only
state `chat` mutates; the users table is read-only here). -/
structure ChatResult where
  reply : Str
  mem : Memory
deriving DecidableEq

/-- `chat(data)` from `backend/main.py`. `fetch` is the `fetch_news` call as
seen by this request (topic query to title list), so branches that never call
it are exactly the branches whose result does not depend on `fetch`. -/
def chat (fetch : Str → List Str) (db : UsersDB) (mem : Memory)
    (user_id : Nat) (message : Str) : ChatResult :=
  if wsOnly message then ⟨"Empty message.".data, mem⟩
  else
    match findUserById db user_id with
    | none => ⟨"Invalid user. Please login again.".data, mem⟩
    | some _ =>
      let mem1 := memSetdefault mem user_id
      let text := pyLower message
      let pref : Pref := (memLookup mem1 user_id).getD none
      if inStr "only ai news".data text then
        ⟨"Locked to AI news 🤖".data, memSet mem1 user_id (some .AI)⟩
      else if inStr "only tech news".data text then
        ⟨"Locked to tech news 💻".data, memSet mem1 user_id (some .TECH)⟩
      else if inStr "reset".data text then
        ⟨"Preferences reset.".data, memSet mem1 user_id none⟩
      else if pref = some .AI then
        ⟨summarize (clean_headlines (fetch "AI".data)) "AI".data, mem1⟩
      else if pref = some .TECH then
        ⟨summarize (clean_headlines (fetch "technology".data)) "TECH".data, mem1⟩
      else if inStr "ai".data text then
        ⟨summarize (clean_headlines (fetch "AI".data)) "AI".data, mem1⟩
      else if inStr "tech".data text then
        ⟨summarize (clean_headlines (fetch "technology".data)) "TECH".data, mem1⟩
      else if inStr "news".data text then
        ⟨summarize (clean_headlines (fetch "news".data)) "GENERAL".data, mem1⟩
      else
        ⟨"Ask for AI news, tech news, or general news.".data, mem1⟩

/-! ### Helper lemmas -/

lemma inStr_iff {n h : Str} : inStr n h = true ↔ n <:+: h := by
  unfold inStr
  exact decide_eq_true_iff

lemma inStr_eq_false_iff {n h : Str} : inStr n h = false ↔ ¬ n <:+: h := by
  rw [← Bool.not_eq_true, inStr_iff]

lemma isPyWs_toLower {c : Char} (h : isPyWs c = true) : c.toLower = c := by
  unfold isPyWs at h
  simp only [Bool.or_eq_true, beq_iff_eq] at h
  rcases h with ((((h | h) | h) | h) | h) | h <;> subst h <;> decide

/-- A keyword with a non-whitespace character cannot occur in the lowercased
form of a whitespace-only message. -/
lemma wsOnly_false_of_kw (c : Char) {m kw : Str}
    (hin : inStr kw (pyLower m) = true) (hc : c ∈ kw) (hcw : isPyWs c = false) :
    wsOnly m = false := by
  by_contra hws
  rw [Bool.not_eq_false] at hws
  have hsub : kw ⊆ pyLower m := (inStr_iff.mp hin).subset
  have hcmem : c ∈ pyLower m := hsub hc
  rw [pyLower, List.mem_map] at hcmem
  obtain ⟨c0, hc0, hlc⟩ := hcmem
  have hw0 : isPyWs c0 = true := List.all_eq_true.mp hws c0 hc0
  rw [isPyWs_toLower hw0] at hlc
  rw [hlc] at hw0
  rw [hcw] at hw0
  exact Bool.false_ne_true hw0

lemma memLookup_memSet_self (m : Memory) (k : Nat) (v : Pref) :
    memLookup (memSet m k v) k = some v := by
  induction m with
  | nil => simp [memSet, memLookup]
  | cons e t ih =>
      obtain ⟨k0, v0⟩ := e
      by_cases hk : k0 = k
      · subst hk
        simp [memSet, memLookup]
      · simpa [memSet, hk, memLookup, List.find?_cons_of_neg] using ih

lemma memLookup_memSetdefault_self (m : Memory) (k : Nat) :
    memLookup (memSetdefault m k) k = some ((memLookup m k).getD none) := by
  unfold memSetdefault
  cases h : memLookup m k with
  | some p => simp [h]
  | none =>
      have h0 : m.find? (fun e => decide (e.1 = k)) = none := by
        unfold memLookup at h
        exact Option.map_eq_none'.mp h
      unfold memLookup
      rw [List.find?_append, h0, Option.none_or]
      simp

lemma getD_memLookup_memSetdefault (m : Memory) (k : Nat) :
    (memLookup (memSetdefault m k) k).getD none = (memLookup m k).getD none := by
  rw [memLookup_memSetdefault_self]
  rfl

lemma memSetdefault_of_some {m : Memory} {k : Nat} {p : Pref}
    (h : memLookup m k = some p) : memSetdefault m k = m := by
  unfold memSetdefault
  rw [h]

lemma mem_memSet {e : Nat × Pref} {m : Memory} {k : Nat} {v : Pref}
    (h : e ∈ memSet m k v) : e = (k, v) ∨ e ∈ m := by
  induction m with
  | nil => simpa [memSet] using h
  | cons e0 t ih =>
      obtain ⟨k0, v0⟩ := e0
      by_cases hk : k0 = k
      · subst hk
        rw [memSet, if_pos rfl] at h
        rcases List.mem_cons.mp h with h | h
        · exact .inl h
        · exact .inr (List.mem_cons_of_mem _ h)
      · rw [memSet, if_neg hk] at h
        rcases List.mem_cons.mp h with h | h
        · exact .inr (h ▸ List.mem_cons_self _ _)
        · rcases ih h with h | h
          · exact .inl h
          · exact .inr (List.mem_cons_of_mem _ h)

lemma mem_memSetdefault {e : Nat × Pref} {m : Memory} {k : Nat}
    (h : e ∈ memSetdefault m k) : e ∈ m ∨ e = (k, none) := by
  unfold memSetdefault at h
  rcases h0 : memLookup m k with _ | p
  · rw [h0] at h
    rcases List.mem_append.mp h with h | h
    · exact .inl h
    · exact .inr (by simpa using h)
  · rw [h0] at h
    exact .inl h

/-! ### Claim theorems -/

/-- C2: an empty or whitespace-only message gets the reply `"Empty message."`
for every user id and every database state — in particular also when the user
id is absent from the credential store, which is what "the emptiness check
precedes the user-existence check" means observably — and the preference
memory is returned unchanged. -/
theorem chat_empty_message (fetch : Str → List Str) (db : UsersDB) (mem : Memory)
    (user_id : Nat) (message : Str) (h : wsOnly message = true) :
    chat fetch db mem user_id message = ⟨"Empty message.".data, mem⟩ := by
  simp [chat, h]

/-- C2 witness: a whitespace message from an id that is not registered. -/
theorem chat_empty_message_witness :
    wsOnly " ".data = true ∧
    findUserById ⟨2, [⟨1, "alice".data, "pw".data⟩]⟩ 99 = none ∧
    chat (fun _ => []) ⟨2, [⟨1, "alice".data, "pw".data⟩]⟩ [] 99 " ".data =
      ⟨"Empty message.".data, []⟩ :=
  ⟨by decide, by decide,
    chat_empty_message (fun _ => []) ⟨2, [⟨1, "alice".data, "pw".data⟩]⟩ [] 99
      " ".data (by decide)⟩

/-- C3: a non-whitespace message from a user id absent from the credential
store gets the fixed reply `"Invalid user. Please login again."` and the
preference memory back unchanged; the right-hand side does not mention
`fetch`, so the result is the same for every fetch function — no news fetch
influences the outcome and no preference entry is created or modified. -/
theorem chat_unknown_user (fetch : Str → List Str) (db : UsersDB) (mem : Memory)
    (user_id : Nat) (message : Str)
    (hws : wsOnly message = false) (hu : findUserById db user_id = none) :
    chat fetch db mem user_id message = ⟨"Invalid user. Please login again.".data, mem⟩ := by
  simp [chat, hws, hu]

/-- C3 witness: a well-formed message from an unregistered id. -/
theorem chat_unknown_user_witness :
    wsOnly "give me ai news".data = false ∧
    findUserById ⟨2, [⟨1, "alice".data, "pw".data⟩]⟩ 7 = none ∧
    chat (fun _ => ["x".data]) ⟨2, [⟨1, "alice".data, "pw".data⟩]⟩ [(1, some .AI)] 7
        "give me ai news".data =
      ⟨"Invalid user. Please login again.".data, [(1, some .AI)]⟩ :=
  ⟨by decide, by decide,
    chat_unknown_user (fun _ => ["x".data]) ⟨2, [⟨1, "alice".data, "pw".data⟩]⟩
      [(1, some .AI)] 7 "give me ai news".data (by decide) (by decide)⟩

/-- C6: `summarize` returns the fixed fallback string for lists of length 0
or 1, whatever the category label, and for a list with at least two headlines
it returns exactly the template
`"<label> update: <headline0> and <headline1>."` built from the label and the
first two headlines verbatim. -/
theorem summarize_contract (hs : List Str) (category : Str) :
    (hs.length < 2 → summarize hs category = "No major updates right now.".data) ∧
    (∀ h0 h1 t, hs = h0 :: h1 :: t →
      summarize hs category =
        category ++ " update: ".data ++ h0 ++ " and ".data ++ h1 ++ ".".data) := by
  constructor
  · intro hlen
    match hs with
    | [] => rfl
    | [a] => rfl
    | a :: b :: t => simp at hlen; omega
  · rintro h0 h1 t rfl
    rfl

/-- C6 witness: both arms of the contract at concrete inputs. -/
theorem summarize_contract_witness :
    summarize ["solo".data] "AI".data = "No major updates right now.".data ∧
    summarize ["a".data, "b".data, "c".data] "TECH".data =
      "TECH".data ++ " update: ".data ++ "a".data ++ " and ".data ++ "b".data ++ ".".data :=
  ⟨(summarize_contract ["solo".data] "AI".data).1 (by decide),
    (summarize_contract ["a".data, "b".data, "c".data] "TECH".data).2
      "a".data "b".data ["c".data] rfl⟩

/-- C9: login failure is generic. With an existing username but a password
whose digest does not match, and with a username absent from the store, the
result is the very same `{"error": "Invalid credentials"}` value, so the
response does not reveal whether the username exists. -/
theorem login_enumeration_resistance (hash : Str → Str) (db : UsersDB)
    (u1 p1 u2 p2 : Str) (row : UserRow)
    (h1 : findByUsername db u1 = some row)
    (h2 : hash p1 ≠ row.password)
    (h3 : findByUsername db u2 = none) :
    login hash db u1 p1 = .err "Invalid credentials".data ∧
    login hash db u2 p2 = .err "Invalid credentials".data ∧
    login hash db u1 p1 = login hash db u2 p2 := by
  unfold login
  rw [h1, h3]
  simp [verify_password, h2]

/-- C9 witness: wrong password for `alice` and any password for absent `bob`
produce the identical generic error (digest instantiated concretely). -/
theorem login_enumeration_resistance_witness :
    login (fun s => s) ⟨2, [⟨1, "alice".data, "pw".data⟩]⟩ "alice".data "wrong".data =
      .err "Invalid credentials".data ∧
    login (fun s => s) ⟨2, [⟨1, "alice".data, "pw".data⟩]⟩ "bob".data "pw".data =
      .err "Invalid credentials".data :=
  ⟨(login_enumeration_resistance (fun s => s) ⟨2, [⟨1, "alice".data, "pw".data⟩]⟩
      "alice".data "wrong".data "bob".data "pw".data ⟨1, "alice".data, "pw".data⟩
      (by decide) (by decide) (by decide)).1,
    (login_enumeration_resistance (fun s => s) ⟨2, [⟨1, "alice".data, "pw".data⟩]⟩
      "alice".data "wrong".data "bob".data "pw".data ⟨1, "alice".data, "pw".data⟩
      (by decide) (by decide) (by decide)).2.1⟩

/-- C8: registering a fresh username succeeds with `registered`, the row is
stored with the id handed out by the AUTOINCREMENT counter, and a following
login with the same credentials returns exactly that id. `login` takes the
store by value and returns only the result, so repeating the login against
the post-registration store yields this same id every time. The digest
`hash` is universally quantified, so SHA-256 is covered. -/
theorem register_login_roundtrip (hash : Str → Str) (db : UsersDB) (u p : Str)
    (hfresh : usernameTaken db u = false) :
    (register hash db u p).1 = .registered ∧
    ({ id := db.nextId, username := u, password := hash p } : UserRow) ∈
      (register hash db u p).2.rows ∧
    login hash (register hash db u p).2 u p = .userId db.nextId := by
  have hif : ¬ (usernameTaken db u = true) := by
    rw [hfresh]
    exact Bool.false_ne_true
  unfold register
  rw [if_neg hif]
  refine ⟨rfl, by simp, ?_⟩
  unfold login findByUsername
  have hnone : db.rows.find? (fun r => decide (r.username = u)) = none := by
    rw [List.find?_eq_none]
    intro r hr
    exact List.any_eq_false.mp hfresh r hr
  simp only [List.find?_append, hnone, Option.none_or]
  rw [List.find?_cons_of_pos _ (by simp)]
  simp [verify_password]

/-- C8 witness: register `bob` (fresh in the store) and log in with the same
credentials; the id is the counter value 2. -/
theorem register_login_roundtrip_witness :
    usernameTaken ⟨2, [⟨1, "alice".data, "pw".data⟩]⟩ "bob".data = false ∧
    (register (fun s => s) ⟨2, [⟨1, "alice".data, "pw".data⟩]⟩ "bob".data "pw2".data).1 =
      .registered ∧
    login (fun s => s)
        (register (fun s => s) ⟨2, [⟨1, "alice".data, "pw".data⟩]⟩ "bob".data "pw2".data).2
        "bob".data "pw2".data = .userId 2 :=
  ⟨by decide,
    (register_login_roundtrip (fun s => s) ⟨2, [⟨1, "alice".data, "pw".data⟩]⟩
      "bob".data "pw2".data (by decide)).1,
    (register_login_roundtrip (fun s => s) ⟨2, [⟨1, "alice".data, "pw".data⟩]⟩
      "bob".data "pw2".data (by decide)).2.2⟩

/-- C7: `fetch_news` is a total function into title lists, so no error ever
propagates. It returns `[]` when the API credential is falsy (unset or empty)
and when the HTTP/parse outcome is an exception; on a parsed response it
returns exactly the titles of the articles, every returned string being the
title of some article — articles without a (truthy) title contribute
nothing. -/
theorem fetch_news_fail_open (apiKey : Option Str) (httpResult : Except Unit (List Article)) :
    (keyFalsy apiKey = true → fetch_news apiKey httpResult = []) ∧
    (∀ e, httpResult = .error e → fetch_news apiKey httpResult = []) ∧
    (∀ articles, httpResult = .ok articles → keyFalsy apiKey = false →
      fetch_news apiKey httpResult = extractTitles articles) ∧
    (∀ t, t ∈ fetch_news apiKey httpResult →
      ∃ articles, httpResult = .ok articles ∧ ∃ a ∈ articles, a.title = some t) := by
  refine ⟨fun hk => by simp [fetch_news, hk], ?_, ?_, ?_⟩
  · rintro e rfl
    by_cases hk : keyFalsy apiKey = true <;> simp [fetch_news, hk]
  · rintro articles rfl hk
    simp [fetch_news, hk]
  · intro t ht
    unfold fetch_news at ht
    by_cases hk : keyFalsy apiKey = true
    · rw [if_pos hk] at ht
      simp at ht
    · rw [if_neg hk] at ht
      cases httpResult with
      | error e => simp at ht
      | ok articles =>
          refine ⟨articles, rfl, ?_⟩
          unfold extractTitles at ht
          rw [List.mem_filterMap] at ht
          obtain ⟨a, ha, hfa⟩ := ht
          refine ⟨a, ha, ?_⟩
          cases hat : a.title with
          | none =>
              rw [hat] at hfa
              simp at hfa
          | some t0 =>
              rw [hat] at hfa
              by_cases he : t0.isEmpty
              · simp [he] at hfa
              · simp [he] at hfa
                rw [hfa]

/-- C7 witness: all four conjuncts at concrete inputs — missing key, raised
exception, parsed response, and a title traced back to its article. -/
theorem fetch_news_fail_open_witness :
    fetch_news none (.ok [⟨some "t".data⟩]) = [] ∧
    fetch_news (some "k".data) (.error ()) = [] ∧
    fetch_news (some "k".data) (.ok [⟨some "t".data⟩, ⟨none⟩]) =
      extractTitles [⟨some "t".data⟩, ⟨none⟩] ∧
    ∃ articles, (Except.ok [⟨some "t".data⟩, ⟨none⟩] : Except Unit (List Article)) =
        .ok articles ∧ ∃ a ∈ articles, a.title = some "t".data :=
  ⟨(fetch_news_fail_open none (.ok [⟨some "t".data⟩])).1 (by decide),
    (fetch_news_fail_open (some "k".data) (.error ())).2.1 () rfl,
    (fetch_news_fail_open (some "k".data) (.ok [⟨some "t".data⟩, ⟨none⟩])).2.2.1
      [⟨some "t".data⟩, ⟨none⟩] rfl (by decide),
    (fetch_news_fail_open (some "k".data) (.ok [⟨some "t".data⟩, ⟨none⟩])).2.2.2
      "t".data (by decide)⟩

lemma beforeSep_pre (sep h : Str) : beforeSep sep h <+: h := by
  induction h with
  | nil => simp [beforeSep]
  | cons c t ih =>
      unfold beforeSep
      by_cases hp : sep.isPrefixOf (c :: t) = true
      · rw [if_pos hp]
        exact List.nil_prefix
      · rw [if_neg hp]
        exact List.cons_prefix_cons.mpr ⟨rfl, ih⟩

/-- When `sep` occurs in `h`, the string splits as the part before the first
occurrence, the separator, and a remainder. -/
lemma beforeSep_spec (sep h : Str) (hc : sep <:+: h) :
    ∃ rest, h = beforeSep sep h ++ sep ++ rest := by
  induction h with
  | nil =>
      rw [List.infix_nil] at hc
      exact ⟨[], by simp [hc, beforeSep]⟩
  | cons c t ih =>
      unfold beforeSep
      by_cases hp : sep.isPrefixOf (c :: t) = true
      · rw [if_pos hp]
        obtain ⟨rest, hrest⟩ := List.isPrefixOf_iff_prefix.mp hp
        exact ⟨rest, by simp [← hrest]⟩
      · rw [if_neg hp]
        have hc2 : sep <:+: t := by
          rcases List.infix_cons_iff.mp hc with h0 | h0
          · exact absurd (List.isPrefixOf_iff_prefix.mpr h0) hp
          · exact h0
        obtain ⟨rest, hrest⟩ := ih hc2
        refine ⟨rest, ?_⟩
        conv_lhs => rw [hrest]
        simp

/-- The part before the first occurrence of `sep` contains no occurrence of
`sep` (this is what makes it the FIRST occurrence). -/
lemma beforeSep_no_sep (sep : Str) (hne : sep ≠ []) (h : Str) :
    inStr sep (beforeSep sep h) = false := by
  induction h with
  | nil =>
      simp only [beforeSep]
      rw [inStr_eq_false_iff, List.infix_nil]
      exact hne
  | cons c t ih =>
      unfold beforeSep
      by_cases hp : sep.isPrefixOf (c :: t) = true
      · rw [if_pos hp, inStr_eq_false_iff, List.infix_nil]
        exact hne
      · rw [if_neg hp, inStr_eq_false_iff]
        intro hinf
        rcases List.infix_cons_iff.mp hinf with hpre | hinf2
        · have : sep <+: c :: t :=
            hpre.trans (List.cons_prefix_cons.mpr ⟨rfl, beforeSep_pre sep t⟩)
          exact hp (List.isPrefixOf_iff_prefix.mpr this)
        · exact (inStr_eq_false_iff.mp ih) hinf2

lemma cleanOne_length_le (h : Str) : (cleanOne h).length ≤ 90 := by
  unfold cleanOne truncTail
  set h1 := if inStr sepDash h then beforeSep sepDash h else h with hh1
  by_cases h90 : 90 < h1.length
  · rw [if_pos h90, List.length_append]
    have ht : (h1.take 87).length ≤ 87 := List.length_take_le _ _
    have h3 : ("...".data : Str).length = 3 := rfl
    omega
  · rw [if_neg h90]
    omega

/-- C5: `clean_headlines` keeps at most 3 items and never more than the
input, equals the order-preserving image of `cleanOne` over the first three
inputs (so the i-th output comes from the i-th input), every output string
has at most 90 characters, and an input containing `" - "` contributes
exactly the part before the first occurrence of `" - "` (the decomposition
and no-earlier-occurrence conjuncts characterize "first"), truncated to 87
characters plus `"..."` only when longer than 90. -/
theorem clean_headlines_contract (hs : List Str) :
    (clean_headlines hs).length ≤ 3 ∧
    (clean_headlines hs).length ≤ hs.length ∧
    clean_headlines hs = (hs.take 3).map cleanOne ∧
    (∀ s ∈ clean_headlines hs, s.length ≤ 90) ∧
    (∀ h, inStr sepDash h = true →
      (∃ rest, h = beforeSep sepDash h ++ sepDash ++ rest) ∧
      inStr sepDash (beforeSep sepDash h) = false ∧
      cleanOne h = truncTail (beforeSep sepDash h)) := by
  refine ⟨List.length_take_le _ _, ?_, ?_, ?_, ?_⟩
  · unfold clean_headlines
    rw [List.length_take, List.length_map]
    exact inf_le_right
  · unfold clean_headlines
    exact (List.map_take _ _ _).symm
  · intro s hsmem
    unfold clean_headlines at hsmem
    have hmap : s ∈ hs.map cleanOne := List.take_subset _ _ hsmem
    obtain ⟨h, _, rfl⟩ := List.mem_map.mp hmap
    exact cleanOne_length_le h
  · intro h hc
    refine ⟨beforeSep_spec sepDash h (inStr_iff.mp hc),
      beforeSep_no_sep sepDash (by decide) h, ?_⟩
    unfold cleanOne
    rw [if_pos hc]

/-- C5 witness: a four-element input with a `"Title - Source"` item. -/
theorem clean_headlines_contract_witness :
    clean_headlines ["AA - BB".data, "x".data, "y".data, "z".data] =
      ["AA".data, "x".data, "y".data] ∧
    "AA".data.length ≤ 90 ∧
    cleanOne "AA - BB".data = truncTail (beforeSep sepDash "AA - BB".data) :=
  ⟨by decide,
    (clean_headlines_contract ["AA - BB".data, "x".data, "y".data, "z".data]).2.2.2.1
      "AA".data (by decide),
    ((clean_headlines_contract ["AA - BB".data, "x".data, "y".data, "z".data]).2.2.2.2
      "AA - BB".data (by decide)).2.2⟩

/-- C4: for a registered user whose stored preference is NONE (absent or
explicitly `None` — the default read by the router), a non-whitespace message
whose lowercased text contains `"ai"` anywhere as an unanchored substring and
none of the three commands (`"only ai news"`, `"only tech news"`, `"reset"`)
is answered by the AI fetch-clean-summarize pipeline, and the stored
preference is still NONE after the call (only the default entry is
recorded). -/
theorem chat_ai_keyword_no_lock (fetch : Str → List Str) (db : UsersDB) (mem : Memory)
    (user_id : Nat) (message : Str) (row : UserRow)
    (hws : wsOnly message = false)
    (hreg : findUserById db user_id = some row)
    (hpref : (memLookup mem user_id).getD none = none)
    (hna : inStr "only ai news".data (pyLower message) = false)
    (hnt : inStr "only tech news".data (pyLower message) = false)
    (hnr : inStr "reset".data (pyLower message) = false)
    (hai : inStr "ai".data (pyLower message) = true) :
    chat fetch db mem user_id message =
      ⟨summarize (clean_headlines (fetch "AI".data)) "AI".data, memSetdefault mem user_id⟩ ∧
    (memLookup (chat fetch db mem user_id message).mem user_id).getD none = none := by
  have hchat : chat fetch db mem user_id message =
      ⟨summarize (clean_headlines (fetch "AI".data)) "AI".data, memSetdefault mem user_id⟩ := by
    simp [chat, hws, hreg, hna, hnt, hnr, hai, getD_memLookup_memSetdefault, hpref]
  refine ⟨hchat, ?_⟩
  rw [hchat]
  rw [getD_memLookup_memSetdefault]
  exact hpref

/-- C4 witness: `"aika?"` contains `"ai"` only inside a longer word; the
preference of user 1 stays NONE while the AI pipeline answers. -/
theorem chat_ai_keyword_no_lock_witness :
    chat (fun _ => ["h1".data, "h2".data]) ⟨2, [⟨1, "alice".data, "pw".data⟩]⟩ [] 1
        "aika?".data =
      ⟨summarize (clean_headlines ((fun _ => ["h1".data, "h2".data]) "AI".data)) "AI".data,
        memSetdefault [] 1⟩ ∧
    (memLookup (chat (fun _ => ["h1".data, "h2".data])
        ⟨2, [⟨1, "alice".data, "pw".data⟩]⟩ [] 1 "aika?".data).mem 1).getD none = none :=
  chat_ai_keyword_no_lock (fun _ => ["h1".data, "h2".data])
    ⟨2, [⟨1, "alice".data, "pw".data⟩]⟩ [] 1 "aika?".data ⟨1, "alice".data, "pw".data⟩
    (by decide) (by decide) (by decide) (by decide) (by decide) (by decide) (by decide)

/-- C1: preference persistence across turns, for a registered user whose
current preference is NONE. Containment is the router's check, i.e. on the
lowercased message, exactly as the code computes it. Turn 1: a message
containing `"only ai news"` locks the preference to AI and answers with the
lock confirmation. Turn 2: any later non-whitespace message containing none
of the six routing substrings is answered through the AI fetch branch, and
the stored preference stays AI. Turn 3: a message containing `"reset"` (a
reset command, so not containing the two lock commands, which the router
checks first) resets the preference to NONE with the fixed confirmation.
Turn 4: that same unrelated message from turn 2 now gets the fixed help
string. The whitespace guard for turns 1 and 3 is discharged internally:
a message whose lowercased form contains a keyword cannot be
whitespace-only. `r1`–`r4` name the four successive chat results; the users
table is never written by `chat`, so the user stays registered throughout. -/
theorem chat_preference_persistence
    (f1 f2 f3 f4 : Str → List Str) (db : UsersDB) (mem : Memory)
    (user_id : Nat) (row : UserRow) (m1 m2 m3 : Str) (r1 r2 r3 r4 : ChatResult)
    (hreg : findUserById db user_id = some row)
    (_hpref : (memLookup mem user_id).getD none = none)
    (h1 : inStr "only ai news".data (pyLower m1) = true)
    (h2ws : wsOnly m2 = false)
    (h2a : inStr "only ai news".data (pyLower m2) = false)
    (h2b : inStr "only tech news".data (pyLower m2) = false)
    (h2c : inStr "reset".data (pyLower m2) = false)
    (h2d : inStr "ai".data (pyLower m2) = false)
    (h2e : inStr "tech".data (pyLower m2) = false)
    (h2f : inStr "news".data (pyLower m2) = false)
    (h3 : inStr "reset".data (pyLower m3) = true)
    (h3a : inStr "only ai news".data (pyLower m3) = false)
    (h3b : inStr "only tech news".data (pyLower m3) = false)
    (hr1 : chat f1 db mem user_id m1 = r1)
    (hr2 : chat f2 db r1.mem user_id m2 = r2)
    (hr3 : chat f3 db r2.mem user_id m3 = r3)
    (hr4 : chat f4 db r3.mem user_id m2 = r4) :
    r1.reply = "Locked to AI news 🤖".data ∧
    memLookup r1.mem user_id = some (some Category.AI) ∧
    r2.reply = summarize (clean_headlines (f2 "AI".data)) "AI".data ∧
    memLookup r2.mem user_id = some (some Category.AI) ∧
    r3.reply = "Preferences reset.".data ∧
    memLookup r3.mem user_id = some none ∧
    r4.reply = "Ask for AI news, tech news, or general news.".data := by
  have hws1 : wsOnly m1 = false :=
    wsOnly_false_of_kw 'o' h1 (by decide) (by decide)
  have hws3 : wsOnly m3 = false :=
    wsOnly_false_of_kw 'r' h3 (by decide) (by decide)
  -- turn 1: lock to AI
  have r1eq : r1 = ⟨"Locked to AI news 🤖".data,
      memSet (memSetdefault mem user_id) user_id (some .AI)⟩ := by
    rw [← hr1]
    simp [chat, hws1, hreg, h1]
  have l1 : memLookup r1.mem user_id = some (some Category.AI) := by
    rw [r1eq]
    exact memLookup_memSet_self _ _ _
  -- turn 2: preference-driven AI fetch, memory untouched
  have hsd1 : memSetdefault r1.mem user_id = r1.mem := memSetdefault_of_some l1
  have r2eq : r2 = ⟨summarize (clean_headlines (f2 "AI".data)) "AI".data, r1.mem⟩ := by
    rw [← hr2]
    simp [chat, h2ws, hreg, h2a, h2b, h2c, hsd1, l1]
  have l2 : memLookup r2.mem user_id = some (some Category.AI) := by
    rw [r2eq]
    exact l1
  -- turn 3: reset
  have hsd2 : memSetdefault r2.mem user_id = r2.mem := memSetdefault_of_some l2
  have r3eq : r3 = ⟨"Preferences reset.".data, memSet r2.mem user_id none⟩ := by
    rw [← hr3]
    simp [chat, hws3, hreg, h3a, h3b, h3, hsd2]
  have l3 : memLookup r3.mem user_id = some none := by
    rw [r3eq]
    exact memLookup_memSet_self _ _ _
  -- turn 4: the same unrelated message now falls to the help text
  have hsd3 : memSetdefault r3.mem user_id = r3.mem := memSetdefault_of_some l3
  have r4eq : r4 = ⟨"Ask for AI news, tech news, or general news.".data, r3.mem⟩ := by
    rw [← hr4]
    simp [chat, h2ws, hreg, h2a, h2b, h2c, h2d, h2e, h2f, hsd3, l3]
  exact ⟨by rw [r1eq], l1, by rw [r2eq], l2, by rw [r3eq], l3, by rw [r4eq]⟩

/-- C1 witness: the four-turn scenario for registered user 1 with messages
`"only ai news"`, `"hello!"`, `"reset"`, `"hello!"`. -/
theorem chat_preference_persistence_witness :
    (⟨"Locked to AI news 🤖".data, [(1, some Category.AI)]⟩ : ChatResult).reply =
      "Locked to AI news 🤖".data ∧
    memLookup [(1, some Category.AI)] 1 = some (some Category.AI) ∧
    (⟨"No major updates right now.".data, [(1, some Category.AI)]⟩ : ChatResult).reply =
      summarize (clean_headlines ((fun _ => ([] : List Str)) "AI".data)) "AI".data ∧
    memLookup [(1, some Category.AI)] 1 = some (some Category.AI) ∧
    (⟨"Preferences reset.".data, [(1, (none : Pref))]⟩ : ChatResult).reply =
      "Preferences reset.".data ∧
    memLookup [(1, (none : Pref))] 1 = some none ∧
    (⟨"Ask for AI news, tech news, or general news.".data, [(1, (none : Pref))]⟩ :
      ChatResult).reply = "Ask for AI news, tech news, or general news.".data :=
  chat_preference_persistence
    (fun _ => []) (fun _ => []) (fun _ => []) (fun _ => [])
    ⟨2, [⟨1, "alice".data, "pw".data⟩]⟩ [] 1 ⟨1, "alice".data, "pw".data⟩
    "only ai news".data "hello!".data "reset".data
    ⟨"Locked to AI news 🤖".data, [(1, some Category.AI)]⟩
    ⟨"No major updates right now.".data, [(1, some Category.AI)]⟩
    ⟨"Preferences reset.".data, [(1, (none : Pref))]⟩
    ⟨"Ask for AI news, tech news, or general news.".data, [(1, (none : Pref))]⟩
    (by decide) (by decide) (by decide) (by decide) (by decide) (by decide)
    (by decide) (by decide) (by decide) (by decide) (by decide) (by decide)
    (by decide) (by decide) (by decide) (by decide) (by decide)

/-- C10: keys of the preference memory always point at registered users.
If every key of `mem` exists in the users table, the same holds after any
chat call — the default entry is inserted only after the emptiness and
user-existence checks both pass — and a chat call from an unregistered id
returns the memory entirely unchanged, so it can never create an entry for
an id outside the credential store. -/
theorem chat_memory_keys_registered (fetch : Str → List Str) (db : UsersDB)
    (mem : Memory) (user_id : Nat) (message : Str)
    (hinv : ∀ e ∈ mem, findUserById db e.1 ≠ none) :
    (∀ e ∈ (chat fetch db mem user_id message).mem, findUserById db e.1 ≠ none) ∧
    (findUserById db user_id = none → (chat fetch db mem user_id message).mem = mem) := by
  constructor
  · intro e he
    by_cases hws : wsOnly message = true
    · simp [chat, hws] at he
      exact hinv e he
    · rw [Bool.not_eq_true] at hws
      cases hu : findUserById db user_id with
      | none =>
          simp [chat, hws, hu] at he
          exact hinv e he
      | some row =>
          have hdef : ∀ x : Nat × Pref, x ∈ memSetdefault mem user_id →
              findUserById db x.1 ≠ none := by
            intro x hx
            rcases mem_memSetdefault hx with hx | hx
            · exact hinv x hx
            · rw [hx]
              simp [hu]
          have hset : ∀ (v : Pref) (x : Nat × Pref),
              x ∈ memSet (memSetdefault mem user_id) user_id v →
              findUserById db x.1 ≠ none := by
            intro v x hx
            rcases mem_memSet hx with hx | hx
            · rw [hx]
              simp [hu]
            · exact hdef x hx
          simp only [chat, hws, Bool.false_eq_true, if_false, hu] at he
          repeat' first
          | exact hset _ e he
          | exact hdef e he
          | split at he
  · intro hu
    by_cases hws : wsOnly message = true <;> simp [chat, hws, hu]

/-- C10 witness: the invariant survives a reset command from user 1, and a
chat from unregistered id 99 leaves the memory untouched. -/
theorem chat_memory_keys_registered_witness :
    (∀ e ∈ (chat (fun _ => []) ⟨2, [⟨1, "alice".data, "pw".data⟩]⟩ [(1, some Category.AI)]
        1 "reset".data).mem,
      findUserById ⟨2, [⟨1, "alice".data, "pw".data⟩]⟩ e.1 ≠ none) ∧
    (findUserById ⟨2, [⟨1, "alice".data, "pw".data⟩]⟩ 99 = none →
      (chat (fun _ => []) ⟨2, [⟨1, "alice".data, "pw".data⟩]⟩ [(1, some Category.AI)]
        99 "any ai question".data).mem = [(1, some Category.AI)]) :=
  ⟨(chat_memory_keys_registered (fun _ => []) ⟨2, [⟨1, "alice".data, "pw".data⟩]⟩
      [(1, some Category.AI)] 1 "reset".data (by decide)).1,
    (chat_memory_keys_registered (fun _ => []) ⟨2, [⟨1, "alice".data, "pw".data⟩]⟩
      [(1, some Category.AI)] 99 "any ai question".data (by decide)).2⟩

end NewsBot
